import Mathlib

/-!
Verification development for the bids-duckdb repository: a shallow
embedding of the entity-extraction, schema and loader logic of
src/bids_duckdb (base.py, schema.py, approach1_sql.py, approach2_python.py,
approach3_table_function.py, benchmark.py), together with theorems about
the behaviour the specification describes.  The embedded DuckDB engine
operations (read_csv over a glob, UNION ALL, view over a registered
row-producing function) are modelled from the engine's documented
semantics, since the engine itself is an external dependency.
-/

namespace BidsDuckdb

/-- ASCII alphanumeric test: the character class [a-zA-Z0-9] used by the
entity regular expressions in base.py and approach1_sql.py. -/
def isAlnum (c : Char) : Bool :=
  ('a' ≤ c && c ≤ 'z') || ('A' ≤ c && c ≤ 'Z') || ('0' ≤ c && c ≤ '9')

/-- Final path component as a character list: the semantics of
Path(filepath).name used by BIDSLoader.parse_bids_entities (everything
after the last '/'). -/
def basenameChars (l : List Char) : List Char :=
  (l.reverse.takeWhile (fun c => !(c == '/'))).reverse

/-- Python dict assignment d[k] = v: replaces the value in place when the
key is present (keeping insertion order), appends otherwise. -/
def dictInsert (d : List (String × String)) (k v : String) : List (String × String) :=
  if d.any (fun p => p.1 == k) then
    d.map (fun p => if p.1 == k then (k, v) else p)
  else d ++ [(k, v)]

/-- Python dict lookup d.get(k). -/
def dictLookup : List (String × String) → String → Option String
  | [], _ => none
  | p :: d, k => if p.1 == k then some p.2 else dictLookup d k

/-- Python dict.update applied entry by entry. -/
def dictUpdate (d : List (String × String)) (kvs : List (String × String)) :
    List (String × String) :=
  kvs.foldl (fun a kv => dictInsert a kv.1 kv.2) d

/-- Dropping a run never lengthens a list (used for termination below). -/
lemma dropWhileLenLe {α : Type} (p : α → Bool) (l : List α) :
    (l.dropWhile p).length ≤ l.length := by
  induction l with
  | nil => simp [List.dropWhile]
  | cons a l ih =>
    by_cases h : p a = true
    · simp only [List.dropWhile, h]
      exact Nat.le_succ_of_le ih
    · simp only [List.dropWhile, eq_false_of_ne_true h]
      exact Nat.le_refl _

/-- Fuelled scanner behind bidsMatches.  Each recursive call consumes at
least one character, so fuel equal to the list length is always enough;
the fuel only makes the recursion structural. -/
def bidsMatchesF : Nat → List Char → List (String × String)
  | 0, _ => []
  | _, [] => []
  | fuel + 1, c :: cs =>
    if isAlnum c then
      match cs.dropWhile isAlnum with
      | '-' :: cs2 =>
        let v := cs2.takeWhile isAlnum
        if v.isEmpty then bidsMatchesF fuel cs2
        else (String.mk ((c :: cs).takeWhile isAlnum), String.mk v) ::
          bidsMatchesF fuel (cs2.dropWhile isAlnum)
      | other => bidsMatchesF fuel other
    else bidsMatchesF fuel cs

/-- All left-to-right non-overlapping matches of the regular expression
([a-zA-Z0-9]+)-([a-zA-Z0-9]+) (re.finditer in parse_bids_entities), each
as the (key, value) pair of its two capture groups.  Scanning resumes
after the value of a completed match; a maximal alphanumeric run that is
not followed by a hyphen and at least one alphanumeric character cannot
start a match anywhere inside it, so scanning resumes after it. -/
def bidsMatches (l : List Char) : List (String × String) :=
  bidsMatchesF l.length l

/-- One step of the entity-accumulation loop in parse_bids_entities: keep
the pair only when the key is a known entity short name. -/
def entStep (known : List String) (acc : List (String × String)) (kv : String × String) :
    List (String × String) :=
  if known.contains kv.1 then dictInsert acc kv.1 kv.2 else acc

/-- BIDSLoader.parse_bids_entities: take the final path component, scan it
with re.finditer for key-value tokens, and keep the pairs whose key is in
self.entity_short_to_full; Python dict assignment makes a later occurrence
of a key overwrite an earlier one. -/
def parse_bids_entities (known : List String) (filepath : String) :
    List (String × String) :=
  (bidsMatches (basenameChars filepath.data)).foldl (entStep known) []

/-- Modelled from the spec (4.2): the value extracted for key k is the value
of the last left-to-right match whose key is k, provided k is known;
unknown keys never appear. -/
def specExtractValue (known : List String) (filename : String) (k : String) :
    Option String :=
  if known.contains k then
    ((bidsMatches filename.data).reverse.find? (fun kv => kv.1 == k)).map Prod.snd
  else none

/-- First-defined alternative of two options. -/
def optOr {α : Type} (a b : Option α) : Option α :=
  match a with
  | some v => some v
  | none => b

lemma optOr_none_right {α : Type} (a : Option α) : optOr a none = a := by
  cases a <;> rfl

lemma optOr_assoc {α : Type} (a b c : Option α) :
    optOr (optOr a b) c = optOr a (optOr b c) := by
  cases a <;> rfl

lemma optOr_map {α β : Type} (f : α → β) (a b : Option α) :
    (optOr a b).map f = optOr (a.map f) (b.map f) := by
  cases a <;> rfl

lemma findQ_append {α : Type} (p : α → Bool) (l1 l2 : List α) :
    (l1 ++ l2).find? p = optOr (l1.find? p) (l2.find? p) := by
  induction l1 with
  | nil => rfl
  | cons a l ih =>
    by_cases h : p a = true
    · simp [List.find?, h, optOr]
    · simp only [List.cons_append, List.find?, eq_false_of_ne_true h, ih, List.append_eq]

lemma findQ_filter {α : Type} (p q : α → Bool) (l : List α)
    (h : ∀ x ∈ l, q x = true → p x = true) :
    (l.filter p).find? q = l.find? q := by
  induction l with
  | nil => rfl
  | cons a l ih =>
    have ha := h a (List.mem_cons_self a l)
    have hl : ∀ x ∈ l, q x = true → p x = true :=
      fun x hx => h x (List.mem_cons_of_mem a hx)
    rw [List.filter_cons]
    by_cases hpa : p a = true
    · rw [if_pos hpa]
      by_cases hqa : q a = true
      · simp [List.find?, hqa]
      · simp only [List.find?, eq_false_of_ne_true hqa, ih hl]
    · have hqa : q a = false := by
        cases hq : q a
        · rfl
        · exact absurd (ha hq) hpa
      rw [if_neg hpa]
      simp only [List.find?, hqa, ih hl]

lemma takeWhileAppendAll {α : Type} (p : α → Bool) (A B : List α)
    (h : ∀ c ∈ A, p c = true) : (A ++ B).takeWhile p = A ++ B.takeWhile p := by
  induction A with
  | nil => rfl
  | cons a A ih =>
    have ha := h a (List.mem_cons_self a A)
    have hA : ∀ c ∈ A, p c = true := fun c hc => h c (List.mem_cons_of_mem a hc)
    simp only [List.cons_append, List.takeWhile, ha, ih hA, List.append_eq]

lemma takeWhileAllTrue {α : Type} (p : α → Bool) (l : List α)
    (h : ∀ c ∈ l, p c = true) : l.takeWhile p = l := by
  have := takeWhileAppendAll p l [] h
  simpa using this

lemma filterReverseComm {α : Type} (p : α → Bool) (l : List α) :
    (l.filter p).reverse = l.reverse.filter p := by
  induction l with
  | nil => rfl
  | cons a l ih =>
    rw [List.filter_cons, List.reverse_cons, List.filter_append]
    by_cases h : p a = true
    · rw [if_pos h, List.reverse_cons, ih]
      simp [List.filter, h]
    · rw [if_neg h, ih]
      simp [List.filter, eq_false_of_ne_true h]

lemma dictLookup_eq_none (d : List (String × String)) (k : String)
    (h : d.any (fun p => p.1 == k) = false) : dictLookup d k = none := by
  induction d with
  | nil => rfl
  | cons p d ih =>
    simp only [List.any_cons, Bool.or_eq_false_iff] at h
    simp only [dictLookup, h.1, Bool.false_eq_true, if_false]
    exact ih h.2

lemma dictLookup_append (d1 d2 : List (String × String)) (k : String) :
    dictLookup (d1 ++ d2) k = optOr (dictLookup d1 k) (dictLookup d2 k) := by
  induction d1 with
  | nil => rfl
  | cons p d ih =>
    by_cases h : (p.1 == k) = true
    · simp [dictLookup, h, optOr]
    · simp only [List.cons_append, dictLookup, eq_false_of_ne_true h, Bool.false_eq_true,
        if_false, ih, List.append_eq]

lemma dictLookup_mapReplace (d : List (String × String)) (k v k' : String) :
    dictLookup (d.map (fun p => if p.1 == k then (k, v) else p)) k' =
      if k' = k then (if d.any (fun p => p.1 == k) then some v else none)
      else dictLookup d k' := by
  induction d with
  | nil => by_cases h : k' = k <;> simp [dictLookup, h]
  | cons p d ih =>
    simp only [List.map_cons, List.any_cons, dictLookup]
    by_cases hpk : p.1 = k
    · have hpkb : (p.1 == k) = true := by simpa using hpk
      by_cases hk : k' = k
      · have hkk : (k == k') = true := by simpa using hk.symm
        simp [dictLookup, hpkb, hkk, hk]
      · have hkk : (k == k') = false := by
          simp only [beq_eq_false_iff_ne, ne_eq]
          exact fun hc => hk hc.symm
        have hpk' : (p.1 == k') = false := by
          simp only [beq_eq_false_iff_ne, ne_eq, hpk]
          exact fun hc => hk hc.symm
        simp only [hpkb, if_true, dictLookup, hkk, Bool.false_eq_true, if_false, ih,
          if_neg hk, hpk']
    · have hpkb : (p.1 == k) = false := by simpa using hpk
      by_cases hk : k' = k
      · have hpk' : (p.1 == k') = false := by
          simp only [beq_eq_false_iff_ne, ne_eq, hk]
          exact hpk
        simp only [hpkb, Bool.false_eq_true, if_false, dictLookup, hpk', ih, if_pos hk,
          Bool.false_or]
      · by_cases hpk' : (p.1 == k') = true
        · simp [dictLookup, hpkb, hpk', hk]
        · simp only [hpkb, Bool.false_eq_true, if_false, dictLookup,
            eq_false_of_ne_true hpk', ih, if_neg hk]

lemma dictLookup_dictInsert (d : List (String × String)) (k v k' : String) :
    dictLookup (dictInsert d k v) k' = if k' = k then some v else dictLookup d k' := by
  unfold dictInsert
  by_cases h : d.any (fun p => p.1 == k) = true
  · rw [if_pos h, dictLookup_mapReplace, h]
    simp
  · have hf : d.any (fun p => p.1 == k) = false := eq_false_of_ne_true h
    rw [if_neg h, dictLookup_append]
    by_cases hk : k' = k
    · have hkk : (k == k') = true := by simpa using hk.symm
      rw [if_pos hk, dictLookup_eq_none d k' (hk ▸ hf)]
      simp [dictLookup, hkk, optOr]
    · have hne : (k == k') = false := by
        simp only [beq_eq_false_iff_ne, ne_eq]
        exact fun hc => hk hc.symm
      rw [if_neg hk]
      have h1 : dictLookup [(k, v)] k' = none := by simp [dictLookup, hne]
      rw [h1, optOr_none_right]

lemma dictLookup_foldl_entStep (known : List String) (k : String)
    (ms : List (String × String)) :
    ∀ d : List (String × String),
      dictLookup (ms.foldl (entStep known) d) k =
        optOr (((ms.filter (fun kv => known.contains kv.1)).reverse.find?
            (fun kv => kv.1 == k)).map Prod.snd)
          (dictLookup d k) := by
  induction ms with
  | nil => intro d; rfl
  | cons kv ms ih =>
    intro d
    rw [List.foldl_cons, List.filter_cons]
    by_cases hk : known.contains kv.1 = true
    · have hk2 : kv.1 ∈ known := by simpa using hk
      have hstep : entStep known d kv = dictInsert d kv.1 kv.2 := by
        simp [entStep, hk2]
      rw [hstep, ih, if_pos hk, List.reverse_cons, findQ_append, optOr_map, optOr_assoc]
      congr 1
      rw [dictLookup_dictInsert]
      by_cases he : kv.1 = k
      · have : (kv.1 == k) = true := by simpa using he
        simp only [List.find?, this, Option.map_some', optOr]
        rw [if_pos he.symm]
      · have hb : (kv.1 == k) = false := by simpa using he
        have : k = kv.1 → False := fun hc => he hc.symm
        simp only [List.find?, hb, Option.map_none', optOr]
        rw [if_neg this]
    · have hk' : kv.1 ∉ known := by simpa using hk
      have hstep : entStep known d kv = d := by simp [entStep, hk']
      rw [hstep, ih, if_neg hk]

lemma basenameNoSlash (l : List Char) (h : ('/' : Char) ∉ l) :
    basenameChars l = l := by
  unfold basenameChars
  rw [takeWhileAllTrue, List.reverse_reverse]
  intro c hc
  have hcl : c ∈ l := List.mem_reverse.mp hc
  have : ¬(c == '/') = true := by
    simp only [beq_iff_eq]
    intro hceq
    exact h (hceq ▸ hcl)
  simp [Bool.not_eq_true] at this
  simp [this]

lemma basenameDropsDirs (l1 l2 : List Char) (h : ('/' : Char) ∉ l2) :
    basenameChars (l1 ++ '/' :: l2) = l2 := by
  unfold basenameChars
  rw [List.reverse_append, List.reverse_cons, List.append_assoc]
  rw [takeWhileAppendAll]
  · have hdrop : List.takeWhile (fun c => !(c == '/')) (['/'] ++ l1.reverse) = [] := by
      simp [List.takeWhile]
    rw [hdrop, List.append_nil, List.reverse_reverse]
  · intro c hc
    have hcl : c ∈ l2 := List.mem_reverse.mp hc
    have : ¬(c == '/') = true := by
      simp only [beq_iff_eq]
      intro hceq
      exact h (hceq ▸ hcl)
    simp [Bool.not_eq_true] at this
    simp [this]

/-- C2.  For every filename (a path component, hence slash-free), every
known-short-name set and every key, the extraction of parse_bids_entities
agrees with the specification reading: the key is bound to the value of
its last left-to-right match when the key is known, unknown keys never
appear, and the result is the empty mapping when nothing matches. -/
theorem c2_parse_entities_matches_spec (known : List String) (fname : String)
    (k : String) (h : ('/' : Char) ∉ fname.data) :
    dictLookup (parse_bids_entities known fname) k = specExtractValue known fname k
    ∧ (bidsMatches fname.data = [] → parse_bids_entities known fname = []) := by
  have hb : basenameChars fname.data = fname.data := basenameNoSlash fname.data h
  constructor
  · unfold parse_bids_entities specExtractValue
    rw [hb, dictLookup_foldl_entStep]
    have hnil : dictLookup [] k = none := rfl
    rw [hnil, optOr_none_right]
    by_cases hkk : known.contains k = true
    · rw [if_pos hkk]
      congr 1
      rw [filterReverseComm]
      apply findQ_filter
      intro kv _ hq
      have hkveq : kv.1 = k := by simpa using hq
      rw [hkveq]
      exact hkk
    · rw [if_neg hkk]
      have hnone : ((bidsMatches fname.data).filter
          (fun kv => known.contains kv.1)).reverse.find? (fun kv => kv.1 == k) = none := by
        rw [List.find?_eq_none]
        intro kv hkv
        have hmem : kv ∈ (bidsMatches fname.data).filter (fun kv => known.contains kv.1) :=
          List.mem_reverse.mp hkv
        have hknown : known.contains kv.1 = true := (List.mem_filter.mp hmem).2
        simp only [beq_iff_eq]
        intro hceq
        exact hkk (hceq ▸ hknown)
      rw [hnone]
      rfl
  · intro hm
    unfold parse_bids_entities
    rw [hb, hm]
    rfl

/-- Witness for C2 at a concrete filename with a repeated key, an unknown
key and a known key. -/
theorem c2_parse_entities_matches_spec_witness :
    (('/' : Char) ∉ "sub-01_foo-9_sub-02_task-rest.tsv".data)
    ∧ (dictLookup (parse_bids_entities ["sub", "task"] "sub-01_foo-9_sub-02_task-rest.tsv") "sub"
        = specExtractValue ["sub", "task"] "sub-01_foo-9_sub-02_task-rest.tsv" "sub"
      ∧ (bidsMatches "sub-01_foo-9_sub-02_task-rest.tsv".data = [] →
          parse_bids_entities ["sub", "task"] "sub-01_foo-9_sub-02_task-rest.tsv" = [])) :=
  ⟨by decide, c2_parse_entities_matches_spec ["sub", "task"]
    "sub-01_foo-9_sub-02_task-rest.tsv" "sub" (by decide)⟩

/-- C10.  Entity extraction only sees the final path component: prefixing
any directory path leaves parse_bids_entities unchanged, for any proper
filename (nonempty and slash-free). -/
theorem c10_parse_ignores_directories (known : List String) (dir name : String)
    (hne : name ≠ "") (h : ('/' : Char) ∉ name.data) :
    parse_bids_entities known (dir ++ "/" ++ name) = parse_bids_entities known name := by
  unfold parse_bids_entities
  have hdata : (dir ++ "/" ++ name).data = dir.data ++ '/' :: name.data := by
    simp [String.data_append]
  rw [hdata, basenameDropsDirs dir.data name.data h, basenameNoSlash name.data h]

/-- Witness for C10: a sub-01 directory above the file contributes
nothing; the parse of the full path equals the parse of the filename. -/
theorem c10_parse_ignores_directories_witness :
    ("sub-02_task-rest_events.tsv" ≠ "" ∧ ('/' : Char) ∉ "sub-02_task-rest_events.tsv".data)
    ∧ parse_bids_entities ["sub", "ses", "task"] ("/bids/sub-01/func" ++ "/" ++ "sub-02_task-rest_events.tsv")
      = parse_bids_entities ["sub", "ses", "task"] "sub-02_task-rest_events.tsv" :=
  ⟨⟨by decide, by decide⟩, c10_parse_ignores_directories ["sub", "ses", "task"]
    "/bids/sub-01/func" "sub-02_task-rest_events.tsv" (by decide) (by decide)⟩

/-- One entity definition object of the BIDS schema (schema.py): the
fields read by BIDSSchema are name, display_name, type and format;
dict.get of an absent field is modelled by Option. -/
structure EntityDef where
  name : Option String
  display_name : Option String
  etype : Option String
  format : Option String
deriving DecidableEq

/-- The entities.yaml document: a mapping full entity name -> definition,
in document order. -/
abbrev Entities := List (String × EntityDef)

/-- BIDSSchema._get_fallback_entities: the fixed fallback set used when
loading the remote schema fails. -/
def fallbackEntities : Entities :=
  [("subject", ⟨some "sub", some "Subject", some "string", none⟩),
   ("session", ⟨some "ses", some "Session", some "string", none⟩),
   ("task", ⟨some "task", some "Task", some "string", none⟩),
   ("acquisition", ⟨some "acq", some "Acquisition", some "string", none⟩),
   ("ceagent", ⟨some "ce", some "Contrast Enhancing Agent", some "string", none⟩),
   ("reconstruction", ⟨some "rec", some "Reconstruction", some "string", none⟩),
   ("direction", ⟨some "dir", some "Phase Encoding Direction", some "string", none⟩),
   ("run", ⟨some "run", some "Run", some "string", some "index"⟩),
   ("echo", ⟨some "echo", some "Echo", some "string", some "index"⟩),
   ("space", ⟨some "space", some "Space", some "string", none⟩),
   ("description", ⟨some "desc", some "Description", some "string", none⟩)]

/-- Python str.title(): the first letter of every contiguous letter run is
uppercased and the rest lowercased (used as the display-name default). -/
def pyTitleChars : Bool → List Char → List Char
  | _, [] => []
  | prevAlpha, c :: cs =>
    if c.isAlpha then
      (if prevAlpha then c.toLower else c.toUpper) :: pyTitleChars true cs
    else c :: pyTitleChars false cs

/-- Python str.title() on a string. -/
def pyTitle (s : String) : String :=
  String.mk (pyTitleChars false s.data)

/-- The loop body of BIDSSchema.get_entity_mapping: for each (full_name,
definition), when definition.get("name") is truthy, mapping[name] =
full_name. -/
def entityMappingOf (es : Entities) : List (String × String) :=
  es.foldl (fun m p =>
    match p.2.name with
    | some sn => if sn == "" then m else dictInsert m sn p.1
    | none => m) []

/-- The loop body of BIDSSchema.get_entity_display_names: display name is
definition.get("display_name", definition.get("name", "").title()). -/
def displayNamesOf (es : Entities) : List (String × String) :=
  es.foldl (fun m p =>
    let dn := match p.2.display_name with
      | some d => d
      | none => pyTitle (p.2.name.getD "")
    match p.2.name with
    | some sn => if sn == "" then m else dictInsert m sn dn
    | none => m) []

/-- The mutable fields of a BIDSSchema instance: schema_version together
with the two caches written by __init__ (both None). -/
structure BIDSSchemaModel where
  schema_version : String
  entities : Option Entities
  shortToFull : Option (List (String × String))
deriving DecidableEq

/-- BIDSSchema.__init__: construction only stores the version and clears
the caches, so it never fails. -/
def mkBIDSSchema (version : String) : BIDSSchemaModel :=
  ⟨version, none, none⟩

/-- BIDSSchema.base_url. -/
def base_url (s : BIDSSchemaModel) : String :=
  "https://raw.githubusercontent.com/bids-standard/bids-specification/"
    ++ s.schema_version ++ "/src/schema/objects"

/-- URL of the entity definition document fetched by load_entities. -/
def entitiesUrl (s : BIDSSchemaModel) : String :=
  base_url s ++ "/entities.yaml"

/-- BIDSSchema.load_entities.  The fetch parameter is the outcome of the
requests.get + yaml.safe_load attempt at call time (none = any exception,
caught by the handler).  A cached value is returned unchanged; a
successful fetch is cached; the fallback produced on failure is returned
WITHOUT being written to the cache (the source returns before the
assignment to self._entities). -/
def load_entities (fetch : Option Entities) (s : BIDSSchemaModel) :
    Entities × BIDSSchemaModel :=
  match s.entities with
  | some es => (es, s)
  | none =>
    match fetch with
    | some es => (es, { s with entities := some es })
    | none => (fallbackEntities, s)

/-- BIDSSchema.get_entity_mapping: cached after the first call. -/
def get_entity_mapping (fetch : Option Entities) (s : BIDSSchemaModel) :
    List (String × String) × BIDSSchemaModel :=
  match s.shortToFull with
  | some m => (m, s)
  | none =>
    let r := load_entities fetch s
    let m := entityMappingOf r.1
    (m, { r.2 with shortToFull := some m })

/-- BIDSSchema.get_entity_display_names: recomputed on every call (the
source keeps no cache for it). -/
def get_entity_display_names (fetch : Option Entities) (s : BIDSSchemaModel) :
    List (String × String) × BIDSSchemaModel :=
  let r := load_entities fetch s
  (displayNamesOf r.1, r.2)

/-- BIDSSchema.get_all_entity_short_names: the keys of the mapping. -/
def get_all_entity_short_names (fetch : Option Entities) (s : BIDSSchemaModel) :
    List String × BIDSSchemaModel :=
  let r := get_entity_mapping fetch s
  (r.1.map Prod.fst, r.2)

/-- get_default_schema: the lru_cache singleton is a BIDSSchema("master")
whose load_entities was called once at construction, with the fetch
outcome of that moment. -/
def default_schema_state (f0 : Option Entities) : BIDSSchemaModel :=
  (load_entities f0 (mkBIDSSchema "master")).2

/-- A one-entity schema document different from the fallback, standing for
a later successful fetch. -/
def altEntities : Entities :=
  [("thing", ⟨some "th", some "Thing", some "string", none⟩)]

/-- C4.  For every schema version, a failed fetch (of any cause) makes
load_entities return the fixed 11-entry fallback set - no exception is
raised, the function being total - and the mapping derived from the
fallback sends sub, ses and task to subject, session and task; schema
construction itself only stores fields and cannot fail. -/
theorem c4_fallback_on_fetch_failure (version : String) :
    (load_entities none (mkBIDSSchema version)).1 = fallbackEntities
    ∧ fallbackEntities.length = 11
    ∧ dictLookup (entityMappingOf fallbackEntities) "sub" = some "subject"
    ∧ dictLookup (entityMappingOf fallbackEntities) "ses" = some "session"
    ∧ dictLookup (entityMappingOf fallbackEntities) "task" = some "task"
    ∧ (mkBIDSSchema version).schema_version = version :=
  ⟨rfl, by decide, by decide, by decide, by decide, rfl⟩

/-- Counterexample to C7: on the default-schema singleton built while the
fetch was failing, two successive load_entities calls do NOT return the
same result once the fetch outcome changes - the fallback returned by the
first call was never cached, so the second call re-fetches. -/
theorem c7_caching_counterexample :
    (load_entities none (default_schema_state none)).1 = fallbackEntities
    ∧ (load_entities (some altEntities) (default_schema_state none)).1 = altEntities
    ∧ fallbackEntities ≠ altEntities := by
  refine ⟨rfl, rfl, ?_⟩
  decide

/-- C7 as amended.  get_entity_mapping is computed once and cached: on
EVERY instance state - also one whose fetches have all failed and whose
entity cache is empty - a second call returns the first call's value
whatever the fetch outcomes of the two calls; and once a successful fetch
has populated the entity cache, load_entities and
get_entity_display_names are stable across calls regardless of later
fetch outcomes.  (Before any successful fetch, load_entities and the
display names may change between calls, as the counterexample shows.) -/
theorem c7_caching_amended (f1 f2 : Option Entities) (s : BIDSSchemaModel) :
    ((get_entity_mapping f2 (get_entity_mapping f1 s).2).1
      = (get_entity_mapping f1 s).1)
    ∧ (∀ es : Entities, s.entities = some es →
        load_entities f1 s = (es, s)
        ∧ load_entities f2 s = (es, s)
        ∧ (get_entity_display_names f2 s).1 = (get_entity_display_names f1 s).1) := by
  constructor
  · unfold get_entity_mapping
    cases hc : s.shortToFull with
    | some m => simp [hc]
    | none => simp [hc]
  · intro es h
    have hload : ∀ f : Option Entities, load_entities f s = (es, s) := by
      intro f
      unfold load_entities
      rw [h]
    refine ⟨hload f1, hload f2, ?_⟩
    unfold get_entity_display_names
    rw [hload f1, hload f2]

/-- Witness for C7's amended statement: the stability conjuncts on a
singleton whose construction fetch succeeded with altEntities, and the
unconditional mapping-caching conjunct additionally at the failed-fetch
singleton (empty entity cache). -/
theorem c7_caching_amended_witness :
    ((get_entity_mapping (some fallbackEntities)
          (get_entity_mapping none (default_schema_state (some altEntities))).2).1
        = (get_entity_mapping none (default_schema_state (some altEntities))).1)
    ∧ ((get_entity_mapping (some altEntities)
          (get_entity_mapping none (default_schema_state none)).2).1
        = (get_entity_mapping none (default_schema_state none)).1)
    ∧ ((default_schema_state (some altEntities)).entities = some altEntities)
    ∧ (load_entities none (default_schema_state (some altEntities))
          = (altEntities, default_schema_state (some altEntities))
      ∧ load_entities (some fallbackEntities) (default_schema_state (some altEntities))
          = (altEntities, default_schema_state (some altEntities))
      ∧ (get_entity_display_names (some fallbackEntities)
            (default_schema_state (some altEntities))).1
        = (get_entity_display_names none (default_schema_state (some altEntities))).1) :=
  ⟨(c7_caching_amended none (some fallbackEntities)
      (default_schema_state (some altEntities))).1,
   (c7_caching_amended none (some altEntities) (default_schema_state none)).1,
   rfl,
   (c7_caching_amended none (some fallbackEntities)
      (default_schema_state (some altEntities))).2 altEntities rfl⟩

/-- A tab-separated source file: absolute path, header row, data rows. -/
structure TsvFile where
  path : String
  header : List String
  rows : List (List String)
deriving DecidableEq

/-- A metadata (JSON sidecar) source file with its serialized content. -/
structure JsonFile where
  path : String
  content : String
deriving DecidableEq

/-- Character-list version of startsWith. -/
def startsWithChars : List Char → List Char → Bool
  | [], _ => true
  | _ :: _, [] => false
  | p :: ps, c :: cs => p == c && startsWithChars ps cs

/-- Character-list version of endsWith. -/
def endsWithChars (sfx l : List Char) : Bool :=
  startsWithChars sfx.reverse l.reverse

/-- Files selected by a glob of the shape **/*<suffix> - the only shape
the loaders use (default pattern "**/*.tsv") - namely the files whose
final path component ends with the suffix.  Models both pathlib
Path.glob and the engine's glob for such patterns. -/
def matchedFiles (tree : List TsvFile) (sfx : String) : List TsvFile :=
  tree.filter (fun f => endsWithChars sfx.data (basenameChars f.path.data))

/-- Metadata files selected by a glob of the shape **/*<suffix>. -/
def matchedJsonFiles (jtree : List JsonFile) (sfx : String) : List JsonFile :=
  jtree.filter (fun f => endsWithChars sfx.data (basenameChars f.path.data))

/-- Attempted match of the pattern <key>-([a-zA-Z0-9]+) anchored at the
start of l: the literal key, a hyphen, then a maximal nonempty
alphanumeric run as the capture group. -/
def tryEntityAt (key : List Char) (l : List Char) : Option String :=
  if startsWithChars key l then
    match l.drop key.length with
    | '-' :: rest =>
      let v := rest.takeWhile isAlnum
      if v.isEmpty then none else some (String.mk v)
    | _ => none
  else none

/-- Leftmost-match scan behind regexp_extract. -/
def regexpScan (key : List Char) : List Char → Option String
  | [] => none
  | c :: cs =>
    match tryEntityAt key (c :: cs) with
    | some v => some v
    | none => regexpScan key cs

/-- Engine regexp_extract(s, key-([a-zA-Z0-9]+), 1): the first capture
group of the leftmost match; per the spec's engine interface (4.3) the
result is NULL when there is no match. -/
def regexp_extract_entity (key : String) (s : String) : Option String :=
  regexpScan key.data s.data

/-- A relation produced by the engine: column names and rows of nullable
text cells. -/
structure Table where
  cols : List String
  rows : List (List (Option String))
deriving DecidableEq

/-- Engine-level failures relevant to the loaders: read_csv over a glob
with no matching file ("No files found that match the pattern"), a
multi-file read whose files disagree on the schema (union_by_name is not
set), and a set operation whose inputs have different column counts
("Set operations can only apply to expressions with the same number of
result columns"). -/
inductive EngError where
  | noFilesMatch
  | schemaMismatch
  | arityMismatch
deriving DecidableEq

/-- BIDSLoader.get_entity_full_name: mapping.get(short, short). -/
def get_entity_full_name (mapping : List (String × String)) (short : String) : String :=
  (dictLookup mapping short).getD short

/-- BIDSLoader.get_entity_column_name. -/
def get_entity_column_name (mapping : List (String × String)) (short : String)
    (useFullNames : Bool) : String :=
  if useFullNames then get_entity_full_name mapping short else short

/-- The dict comprehension applied when use_full_names is set:
entity keys are remapped short -> full, Python dict semantics. -/
def map_to_full_names (mapping : List (String × String))
    (ents : List (String × String)) : List (String × String) :=
  ents.foldl (fun acc kv => dictInsert acc (get_entity_full_name mapping kv.1) kv.2) []

/-- SQLRegexLoader.load_tsv_files: one engine statement reading every
matched file (read_csv with filename=true, which appends the file path as
a column named filename) and projecting *, filename and one
regexp_extract(filename, short-([a-zA-Z0-9]+), 1) column per schema short
name - the extraction runs on the FULL path.  The engine errors when no
file matches; with union_by_name unset it requires every file to share
the first file's header.  The projection lists the filename column twice
(once inside *, once explicitly), which is reproduced here. -/
def approach1_load_tsv (mapping : List (String × String)) (tree : List TsvFile)
    (sfx : String) (useFullNames : Bool) : Except EngError (String × Table) :=
  let shorts := mapping.map Prod.fst
  let entCols := shorts.map (fun s => get_entity_column_name mapping s useFullNames)
  match matchedFiles tree sfx with
  | [] => .error .noFilesMatch
  | f0 :: fs =>
    if (f0 :: fs).all (fun f => f.header == f0.header) then
      .ok ("bids_tsv_data",
        ⟨f0.header ++ ["filename", "filename"] ++ entCols,
         ((f0 :: fs).map (fun f => f.rows.map (fun r =>
            r.map some ++ [some f.path, some f.path] ++
            shorts.map (fun s => regexp_extract_entity s f.path)))).flatten⟩)
    else .error .schemaMismatch

/-- Engine UNION ALL over the per-file SELECT fragments: positional, so
every input must have the same number of columns; column names are taken
from the first input. -/
def unionAllParts : List Table → Except EngError Table
  | [] => .error .arityMismatch
  | t0 :: ts =>
    if ts.all (fun t => t.cols.length == t0.cols.length) then
      .ok ⟨t0.cols, ((t0 :: ts).map Table.rows).flatten⟩
    else .error .arityMismatch

/-- PythonPreprocessLoader.load_tsv_files: an empty match produces the
placeholder table (filepath VARCHAR) instead of failing; otherwise one
SELECT per file - filepath and filename literals, one literal column per
extracted entity (full names when requested), then the file's native
columns - all combined with UNION ALL and materialized. -/
def approach2_load_tsv (mapping : List (String × String)) (tree : List TsvFile)
    (sfx : String) (useFullNames : Bool) : Except EngError (String × Table) :=
  let known := mapping.map Prod.fst
  match matchedFiles tree sfx with
  | [] => .ok ("bids_tsv_data", ⟨["filepath"], []⟩)
  | f0 :: fs =>
    let parts := (f0 :: fs).map (fun f =>
      let ents0 := parse_bids_entities known f.path
      let ents := if useFullNames then map_to_full_names mapping ents0 else ents0
      (⟨["filepath", "filename"] ++ ents.map Prod.fst ++ f.header,
        f.rows.map (fun r =>
          [some f.path, some (String.mk (basenameChars f.path.data))]
          ++ ents.map (fun kv => some kv.2) ++ r.map some)⟩ : Table))
    match unionAllParts parts with
    | .ok t => .ok ("bids_tsv_data", t)
    | .error e => .error e

/-- The scan_tsv_files generator registered by TableFunctionLoader: for
every matched file and every native row, dict(zip(columns, row)) updated
with filepath, filename and the extracted entities (full names when the
captured use_full_names is set).  Each row is one Python dict; the
engine's view over the function unions these dicts by key. -/
def scan_tsv_rows (mapping : List (String × String)) (tree : List TsvFile)
    (sfx : String) (useFullNames : Bool) : List (List (String × String)) :=
  let known := mapping.map Prod.fst
  ((matchedFiles tree sfx).map (fun f =>
    let ents0 := parse_bids_entities known f.path
    let ents := if useFullNames then map_to_full_names mapping ents0 else ents0
    f.rows.map (fun r =>
      dictUpdate (dictUpdate [] (f.header.zip r))
        (dictUpdate [("filepath", f.path),
          ("filename", String.mk (basenameChars f.path.data))] ents)))).flatten

/-- The scan_json_files generator registered by TableFunctionLoader: one
dict per matched metadata file - filepath, filename, the re-serialized
content, and the extracted entities. -/
def scan_json_rows (mapping : List (String × String)) (jtree : List JsonFile)
    (sfx : String) (useFullNames : Bool) : List (List (String × String)) :=
  let known := mapping.map Prod.fst
  (matchedJsonFiles jtree sfx).map (fun f =>
    let ents0 := parse_bids_entities known f.path
    let ents := if useFullNames then map_to_full_names mapping ents0 else ents0
    dictUpdate [("filepath", f.path),
      ("filename", String.mk (basenameChars f.path.data)),
      ("json_content", f.content)] ents)

/-- The registration state of a TableFunctionLoader: the
_functions_registered flag and the use_full_names value captured by the
registered closures (none until registration). -/
structure TFState where
  registered : Bool
  mode : Option Bool
deriving DecidableEq

/-- TableFunctionLoader.__init__ leaves the loader unregistered. -/
def initTFState : TFState := ⟨false, none⟩

/-- TableFunctionLoader._register_functions: an early return makes a
second registration a no-op, so the closures keep the first call's
use_full_names. -/
def register_functions (useFullNames : Bool) (st : TFState) : TFState :=
  if st.registered then st else ⟨true, some useFullNames⟩

/-- The two load operations of TableFunctionLoader. -/
inductive TFOp
  | tsv
  | json
deriving DecidableEq

/-- TableFunctionLoader.load_tsv_files / load_json_files: register (a
no-op when already registered), then create the view whose rows come from
the registered scanner - hence from the mode captured at registration. -/
def tf_load (mapping : List (String × String)) (tree : List TsvFile)
    (jtree : List JsonFile) (op : TFOp) (sfx : String) (useFullNames : Bool)
    (st : TFState) : TFState × String × List (List (String × String)) :=
  let st1 := register_functions useFullNames st
  match op with
  | .tsv => (st1, "bids_tsv_data", scan_tsv_rows mapping tree sfx (st1.mode.getD useFullNames))
  | .json => (st1, "bids_json_metadata", scan_json_rows mapping jtree sfx (st1.mode.getD useFullNames))

/-- BenchmarkResult (benchmark.py): timings are abstracted to naturals. -/
structure BenchmarkResult where
  approach_name : String
  load_time : Nat
  query_times : List (String × Nat)
  row_counts : List (String × Nat)
  memory_usage : Nat
  errors : List String
deriving DecidableEq

/-- The three strategy names known to BenchmarkSuite._create_loader. -/
def knownApproaches : List String := ["sql", "python", "table_function"]

/-- BenchmarkSuite._create_loader: an unknown name raises
ValueError("Unknown approach: ..."). -/
def create_loader (approach : String) : Except String String :=
  if knownApproaches.contains approach then .ok approach
  else .error ("Unknown approach: " ++ approach)

/-- BenchmarkSuite._benchmark_approach: the loader is created first, so an
unknown name raises out of this method; for a known name the rest of the
run is abstracted by env (the loading and querying outcome). -/
def benchmark_approach (env : String → Except String BenchmarkResult)
    (approach : String) : Except String BenchmarkResult :=
  match create_loader approach with
  | .error e => .error e
  | .ok _ => env approach

/-- BenchmarkSuite.run_all: every exception escaping _benchmark_approach
is caught and recorded as a per-strategy BenchmarkResult with zero load
time and the message in errors; the loop always runs to completion. -/
def run_all (env : String → Except String BenchmarkResult)
    (approaches : List String) : List BenchmarkResult :=
  approaches.map (fun a =>
    match benchmark_approach env a with
    | .ok r => r
    | .error e => ⟨a, 0, [], [], 0, [e]⟩)

/-- Decidable equality for Except results, so that concrete loader
outcomes can be checked by evaluation. -/
instance exceptDecEq {ε α : Type} [DecidableEq ε] [DecidableEq α] :
    DecidableEq (Except ε α) := fun a b =>
  match a, b with
  | .error e1, .error e2 =>
    match decEq e1 e2 with
    | isTrue h => isTrue (by rw [h])
    | isFalse h => isFalse (fun hc => h (by injection hc))
  | .ok v1, .ok v2 =>
    match decEq v1 v2 with
    | isTrue h => isTrue (by rw [h])
    | isFalse h => isFalse (fun hc => h (by injection hc))
  | .error _, .ok _ => isFalse (fun hc => Except.noConfusion hc)
  | .ok _, .error _ => isFalse (fun hc => Except.noConfusion hc)

/-- The short-to-full mapping derived from the fallback entity set; the
loaders read it (and its key list) from their schema instance. -/
def fallbackMapping : List (String × String) := entityMappingOf fallbackEntities

/-- The fixture tree of the repository's tests: two subjects, the second
with a session and a run, sharing task rest; both event files have the
native columns onset, duration, trial_type. -/
def fixtureTree : List TsvFile :=
  [⟨"/bids/sub-01/func/sub-01_task-rest_events.tsv",
     ["onset", "duration", "trial_type"], [["1.0", "2.0", "A"], ["3.0", "2.0", "B"]]⟩,
   ⟨"/bids/sub-02/ses-pre/func/sub-02_ses-pre_task-rest_run-01_events.tsv",
     ["onset", "duration", "trial_type"], [["1.0", "2.0", "X"]]⟩]

/-- Index of a column name in a header (first occurrence). -/
def colIdx : List String → String → Nat
  | [], _ => 0
  | c :: cs, name => if c == name then 0 else colIdx cs name + 1

/-- Cell of a row under a named column (null when the column is absent). -/
def tableCell (cols : List String) (r : List (Option String)) (c : String) :
    Option String :=
  r.getD (colIdx cols c) none

/-- Row-by-row agreement of the engine-native table and the host-lazy scan
rows on the fixture: same number of rows and, for every entity column
(full names), the same nullable value on every row. -/
def c1EntityAgreement : Bool :=
  match approach1_load_tsv fallbackMapping fixtureTree "_events.tsv" true with
  | .error _ => false
  | .ok (_, t1) =>
    let rows3 := scan_tsv_rows fallbackMapping fixtureTree "_events.tsv" true
    (t1.rows.length == rows3.length) &&
    ((t1.rows.zip rows3).all (fun pr =>
      (fallbackMapping.map Prod.snd).all (fun cn =>
        tableCell t1.cols pr.1 cn == dictLookup pr.2 cn)))

/-- C1, evaluated at the failing input.  On the canonical fixture tree the
engine-native and host-lazy variants each produce 3 rows whose entity
columns agree row by row, but the host-eager variant fails: its per-file
SELECT fragments have 7 and 9 columns (the two files carry different
entity sets), and the plain UNION ALL joining them is rejected for
differing column counts - so the claimed three-way equivalence does not
hold on the code as written. -/
theorem c1_fixture_cross_variant_divergence :
    ((approach1_load_tsv fallbackMapping fixtureTree "_events.tsv" true).map
        (fun p => p.2.rows.length) = Except.ok 3)
    ∧ (scan_tsv_rows fallbackMapping fixtureTree "_events.tsv" true).length = 3
    ∧ c1EntityAgreement = true
    ∧ approach2_load_tsv fallbackMapping fixtureTree "_events.tsv" true
      = Except.error EngError.arityMismatch :=
  ⟨by decide, by decide, by decide, by decide⟩

/-- Two files whose native column sets differ (x versus y, z) while their
filename entity sets coincide. -/
def heteroTree : List TsvFile :=
  [⟨"/bids/sub-01_task-a_events.tsv", ["x"], [["1"]]⟩,
   ⟨"/bids/sub-02_task-a_events.tsv", ["y", "z"], [["2", "3"]]⟩]

/-- C3, evaluated at the failing input.  With heterogeneous native column
sets the host-eager loader does not succeed with nulls for the missing
columns: its UNION ALL inputs have 5 and 6 columns and the load fails
with the engine's set-operation arity error. -/
theorem c3_heterogeneous_columns_union_error :
    approach2_load_tsv fallbackMapping heteroTree ".tsv" true
      = Except.error EngError.arityMismatch := by
  decide

/-- C5.  Whenever the glob matches no file, the engine-native loader's
single read_csv statement fails with the engine's distinguishable
no-files-found condition ("No files found that match the pattern"), which
propagates to the caller unchanged. -/
theorem c5_sql_loader_zero_files_error (mapping : List (String × String))
    (tree : List TsvFile) (sfx : String) (b : Bool)
    (h : matchedFiles tree sfx = []) :
    approach1_load_tsv mapping tree sfx b = Except.error EngError.noFilesMatch := by
  simp only [approach1_load_tsv, h]

/-- Witness for C5: no fixture file matches a .json glob. -/
theorem c5_sql_loader_zero_files_error_witness :
    matchedFiles fixtureTree ".json" = []
    ∧ approach1_load_tsv fallbackMapping fixtureTree ".json" true
      = Except.error EngError.noFilesMatch :=
  ⟨by decide, c5_sql_loader_zero_files_error fallbackMapping fixtureTree ".json" true
    (by decide)⟩

/-- C6.  Whenever the glob matches no file, the host-eager loader does not
fail: it creates the zero-row placeholder table with the single filepath
column and returns its name. -/
theorem c6_python_loader_zero_files_placeholder (mapping : List (String × String))
    (tree : List TsvFile) (sfx : String) (b : Bool)
    (h : matchedFiles tree sfx = []) :
    approach2_load_tsv mapping tree sfx b
      = Except.ok ("bids_tsv_data", ⟨["filepath"], []⟩) := by
  simp only [approach2_load_tsv, h]

/-- Witness for C6: no fixture file matches a .xyz glob. -/
theorem c6_python_loader_zero_files_placeholder_witness :
    matchedFiles fixtureTree ".xyz" = []
    ∧ approach2_load_tsv fallbackMapping fixtureTree ".xyz" true
      = Except.ok ("bids_tsv_data", ⟨["filepath"], []⟩) :=
  ⟨by decide, c6_python_loader_zero_files_placeholder fallbackMapping fixtureTree ".xyz" true
    (by decide)⟩

/-- Counterexample to C8: running the suite on the unknown name bogus does
not raise - run_all completes and records the ValueError message as a
per-strategy failure result with zero load time. -/
theorem c8_unknown_strategy_counterexample :
    run_all (fun a => Except.ok ⟨a, 1, [], [], 0, []⟩) ["bogus"]
      = [⟨"bogus", 0, [], [], 0, ["Unknown approach: bogus"]⟩] := by
  decide

/-- C8 as amended.  _create_loader does reject an unknown strategy name
with ValueError("Unknown approach: ..."), but run_all catches every
per-strategy exception, so the suite returns normally with the message
recorded in that strategy's failure result instead of raising to the
caller. -/
theorem c8_unknown_strategy_amended (env : String → Except String BenchmarkResult)
    (name : String) (h : knownApproaches.contains name = false) :
    create_loader name = Except.error ("Unknown approach: " ++ name)
    ∧ run_all env [name] = [⟨name, 0, [], [], 0, ["Unknown approach: " ++ name]⟩] := by
  have hc : create_loader name = Except.error ("Unknown approach: " ++ name) := by
    have h2 : name ∉ knownApproaches := by simpa using h
    simp [create_loader, h2]
  refine ⟨hc, ?_⟩
  simp [run_all, benchmark_approach, hc]

/-- Witness for C8's amended statement at the unknown name mystery. -/
theorem c8_unknown_strategy_amended_witness :
    knownApproaches.contains "mystery" = false
    ∧ (create_loader "mystery" = Except.error ("Unknown approach: " ++ "mystery")
      ∧ run_all (fun a => Except.ok ⟨a, 2, [], [], 0, []⟩) ["mystery"]
        = [⟨"mystery", 0, [], [], 0, ["Unknown approach: " ++ "mystery"]⟩]) :=
  ⟨by decide, c8_unknown_strategy_amended (fun a => Except.ok ⟨a, 2, [], [], 0, []⟩)
    "mystery" (by decide)⟩

/-- C9.  After the first load (TSV or JSON) on a fresh TableFunctionLoader
has registered the scanners, the state is registered with the first
call's use_full_names; any later load leaves the state unchanged and its
use_full_names argument has no effect on the produced rows, which always
follow the mode captured at registration. -/
theorem c9_registration_mode_sticky (mapping : List (String × String))
    (tree : List TsvFile) (jtree : List JsonFile) (op1 op2 : TFOp)
    (sfx1 sfx2 : String) (b1 b2 : Bool) :
    ((tf_load mapping tree jtree op1 sfx1 b1 initTFState).1.mode = some b1)
    ∧ ((tf_load mapping tree jtree op2 sfx2 b2
          (tf_load mapping tree jtree op1 sfx1 b1 initTFState).1).1
        = (tf_load mapping tree jtree op1 sfx1 b1 initTFState).1)
    ∧ ((tf_load mapping tree jtree op2 sfx2 b2
          (tf_load mapping tree jtree op1 sfx1 b1 initTFState).1).2.2
        = (tf_load mapping tree jtree op2 sfx2 b1
          (tf_load mapping tree jtree op1 sfx1 b1 initTFState).1).2.2) := by
  cases op1 <;> cases op2 <;> simp [tf_load, register_functions, initTFState]

end BidsDuckdb
